import Mathlib

/-!
Shallow embedding of `closure/goog/debug/errorhandler.js`
(`goog.debug.ErrorHandler`).

The JavaScript fragment wraps functions in try/catch shims.  We model the
relevant slice of the JavaScript world explicitly:

* `Val` — runtime values (numbers, strings, function references, the guard
  object itself, the global object, `undefined`);
* `FnObj` — a function object living in a heap: its code, its expando
  property table (used by `protectEntryPoint` for memoization) and whether
  it exposes a usable `.call` (the IE fallback in the setTimeout/
  setInterval shims);
* `Ev` — the observable events of a run: invocations of underlying
  functions (with receiver and argument list), tracer start/stop calls and
  stack captures, so that the error-handler / tracer contracts can be
  stated as facts about the emitted event trace;
* `St` — the mutable world: the function heap, the tracer-handle counter,
  the (external, abstract) stack-capture primitive and the two window
  scheduler slots;
* `invokeFn` — a fuel-indexed interpreter for calling a function object,
  covering the three kinds of code present in the file: plain base
  functions (arbitrary behaviour, supplied as a Lean function), the
  protected wrapper built by `getProtectedFunction`, and the scheduler
  shims installed by `protectWindowSetTimeout` / `protectWindowSetInterval`.

External collaborators (`goog.debug.Trace.startTracer/stopTracer`,
`goog.debug.getStacktraceSimple`) are modelled as effects: tracer calls
become events carrying a fresh handle, the stack capture reads the
abstract `stackFn` field of the state and logs a `captureStack` event.
-/

namespace GoogDebug

/-- Runtime values of the modelled JavaScript fragment. -/
inductive Val where
  | undef : Val
  | num : Int → Val
  | str : String → Val
  | fnRef : Nat → Val
  | guardRef : Nat → Val
  | globalObj : Val
  deriving DecidableEq, Repr

/-- Observable events of a run: a call of a heap function (with receiver
and arguments), a tracer start (with the fresh handle and the span name),
a tracer stop (with the handle), and a stack capture (with the requested
depth). -/
inductive Ev where
  | call : Nat → Val → List Val → Ev
  | startTracer : Nat → String → Ev
  | stopTracer : Nat → Ev
  | captureStack : Nat → Ev
  deriving DecidableEq, Repr

/-- The `goog.debug.ErrorHandler` object: its `goog.getUid` identity, its
`errorHandlerFn_` (a function reference into the heap, set by the
constructor and never mutated) and its mutable
`addTracersToProtectedFunctions_` flag. -/
structure Guard where
  uid : Nat
  errorHandlerFn_ : Nat
  addTracersToProtectedFunctions_ : Bool
  deriving DecidableEq, Repr

/-- `setAddTracersToProtectedFunctions`: mutates the tracer flag. -/
def setAddTracersToProtectedFunctions (g : Guard) (newVal : Bool) : Guard :=
  { g with addTracersToProtectedFunctions_ := newVal }

/-- Code of a function object in the heap: an arbitrary base function
(given by its behaviour on receiver and arguments), a protected wrapper
built by `getProtectedFunction` (capturing the guard, the tracer flag and
stack string at build time, and the wrapped function), or a scheduler shim
installed by `protectWindowSetTimeout`/`protectWindowSetInterval`
(capturing the guard and the original scheduler). -/
inductive FnCode where
  | base : (Val → List Val → Except Val Val) → FnCode
  | protectedW : Guard → Bool → String → Nat → FnCode
  | schedShim : Guard → Nat → FnCode

/-- A function object: code, expando property table (property name to
function reference, newest binding first) and whether `.call` is usable
(the IE quirk checked by the scheduler shims). -/
structure FnObj where
  code : FnCode
  props : List (String × Nat)
  hasCall : Bool

/-- The mutable world: function heap (function references are list
indices), tracer-handle counter, the abstract external stack-capture
primitive (`goog.debug.getStacktraceSimple`), and the two window
scheduler slots. -/
structure St where
  heap : List FnObj
  nextTracer : Nat
  stackFn : Nat → String
  winSetTimeout : Nat
  winSetInterval : Nat

/-- The regex replace `stackTrace.replace(/(\r\n|\r|\n)/g, '##STACK_BR##')`:
every newline sequence (CRLF, lone CR, lone LF, with CRLF matched first as
in the regex alternation) becomes the placeholder. -/
def replaceNewlines : List Char → String
  | [] => ""
  | '\r' :: '\n' :: rest => "##STACK_BR##" ++ replaceNewlines rest
  | '\r' :: rest => "##STACK_BR##" ++ replaceNewlines rest
  | '\n' :: rest => "##STACK_BR##" ++ replaceNewlines rest
  | c :: rest => String.singleton c ++ replaceNewlines rest

/-- `getStackTraceHolder_`: brackets the newline-replaced stack trace in
the `##PE_STACK_START##` / `##PE_STACK_END##` markers. -/
def getStackTraceHolder_ (stackTrace : String) : String :=
  "##PE_STACK_START##" ++ replaceNewlines stackTrace.data ++ "##PE_STACK_END##"

/-- The memoization property name computed by `protectEntryPoint`:
`'__protected_' + goog.getUid(this) + '_' + this.addTracersToProtectedFunctions_ + '__'`. -/
def protectedFnName (g : Guard) : String :=
  "__protected_" ++ toString g.uid ++ "_" ++
    (if g.addTracersToProtectedFunctions_ then "true" else "false") ++ "__"

/-- `getProtectedFunction`: builds the protected wrapper object for `fn`.
Captures the current tracer flag; when it is set, captures the current
stack with depth 15 (`goog.debug.getStacktraceSimple(15)`), emitting a
`captureStack` event.  Returns the emitted events and the new function
object (the wrapper closure). -/
def getProtectedFunction (g : Guard) (st : St) (fn : Nat) : List Ev × FnObj :=
  let tracers := g.addTracersToProtectedFunctions_
  if tracers then
    ([Ev.captureStack 15],
     { code := FnCode.protectedW g tracers (st.stackFn 15) fn
       props := []
       hasCall := true })
  else
    ([], { code := FnCode.protectedW g tracers "" fn, props := [], hasCall := true })

/-- `protectEntryPoint`: computes the memo property name from the guard's
uid and current tracer flag; if `fn` already carries a wrapper under that
name, returns it, otherwise builds one via `getProtectedFunction`,
attaches it to `fn` under that name and returns it.  Returns the new
state, the emitted events and the wrapper's function reference. -/
def protectEntryPoint (g : Guard) (st : St) (fn : Nat) : St × List Ev × Nat :=
  match st.heap[fn]? with
  | none => (st, [], fn)
  | some fo =>
    match fo.props.lookup (protectedFnName g) with
    | some wid => (st, [], wid)
    | none =>
      let built := getProtectedFunction g st fn
      let wid := st.heap.length
      ({ st with heap :=
            (st.heap.set fn { fo with props := (protectedFnName g, wid) :: fo.props })
              ++ [built.2] },
       built.1, wid)

/-- `wrap` is an alias for `protectEntryPoint`. -/
def wrap (g : Guard) (st : St) (fn : Nat) : St × List Ev × Nat :=
  protectEntryPoint g st fn

/-- Fuel-indexed interpreter for calling a heap function with a receiver
and an argument list.  Returns the new state, the events emitted by the
call (in order) and the outcome (`Except.ok` for a normal return,
`Except.error` for a thrown value).

* a base function logs its invocation and returns its behaviour's result;
* a protected wrapper follows `getProtectedFunction`'s closure: start a
  tracer (when built with tracing) named from the build-time stack, call
  the wrapped function with the wrapper's own receiver and arguments, on
  a throw call `errorHandlerFn_` on the guard and re-throw — an exception
  thrown by the handler itself replaces the original (JavaScript `catch`
  block semantics) — and in all cases stop the tracer last (`finally`);
* a scheduler shim takes its first argument as the callback, protects it
  via `protectEntryPoint`, and forwards exactly the wrapped callback and
  the second argument to the original scheduler — with the shim's own
  receiver when the original supports `.call`, directly (receiver = the
  global object) otherwise — passing the original's result through. -/
def invokeFn : Nat → St → Nat → Val → List Val → St × List Ev × Except Val Val
  | 0, st, _, _, _ => (st, [], Except.error Val.undef)
  | Nat.succ fuel, st, fid, thisv, args =>
    match st.heap[fid]? with
    | none => (st, [], Except.error Val.undef)
    | some fo =>
      match fo.code with
      | FnCode.base beh => (st, [Ev.call fid thisv args], beh thisv args)
      | FnCode.protectedW g tracers stk inner =>
        let tid := st.nextTracer
        let st1 := if tracers then { st with nextTracer := tid + 1 } else st
        let pre : List Ev :=
          if tracers then
            [Ev.startTracer tid ("protectedEntryPoint: " ++ getStackTraceHolder_ stk)]
          else []
        let r1 := invokeFn fuel st1 inner thisv args
        let hstep : St × List Ev × Except Val Val :=
          match r1.2.2 with
          | Except.ok v => (r1.1, [], Except.ok v)
          | Except.error e =>
            let hr := invokeFn fuel r1.1 g.errorHandlerFn_ (Val.guardRef g.uid) [e]
            match hr.2.2 with
            | Except.ok _ => (hr.1, hr.2.1, Except.error e)
            | Except.error e2 => (hr.1, hr.2.1, Except.error e2)
        let post : List Ev := if tracers then [Ev.stopTracer tid] else []
        (hstep.1, pre ++ r1.2.1 ++ hstep.2.1 ++ post, hstep.2.2)
      | FnCode.schedShim g orig =>
        match args.getD 0 Val.undef with
        | Val.fnRef f =>
          let time := args.getD 1 Val.undef
          let p := protectEntryPoint g st f
          match p.1.heap[orig]? with
          | none => (p.1, p.2.1, Except.error Val.undef)
          | some oobj =>
            let thisArg := if oobj.hasCall then thisv else Val.globalObj
            let r := invokeFn fuel p.1 orig thisArg [Val.fnRef p.2.2, time]
            (r.1, p.2.1 ++ r.2.1, r.2.2)
        | _ => (st, [], Except.error Val.undef)

/-- `protectWindowSetTimeout`: replaces the window's `setTimeout` slot
with a shim closing over the guard and the original scheduler. -/
def protectWindowSetTimeout (g : Guard) (st : St) : St :=
  { st with
      heap := st.heap ++
        [{ code := FnCode.schedShim g st.winSetTimeout, props := [], hasCall := true }]
      winSetTimeout := st.heap.length }

/-- `protectWindowSetInterval`: replaces the window's `setInterval` slot
with a shim closing over the guard and the original scheduler. -/
def protectWindowSetInterval (g : Guard) (st : St) : St :=
  { st with
      heap := st.heap ++
        [{ code := FnCode.schedShim g st.winSetInterval, props := [], hasCall := true }]
      winSetInterval := st.heap.length }

/-- Events that are calls of the function with reference `fid`. -/
def isCallTo (fid : Nat) : Ev → Bool
  | Ev.call f _ _ => f == fid
  | _ => false

/-- Events that are tracer starts. -/
def isStartEv : Ev → Bool
  | Ev.startTracer _ _ => true
  | _ => false

/-- Events that are tracer stops. -/
def isStopEv : Ev → Bool
  | Ev.stopTracer _ => true
  | _ => false

/-- Events that are stack captures. -/
def isCaptureEv : Ev → Bool
  | Ev.captureStack _ => true
  | _ => false

/-- Tracer-start events emitted on entry of a wrapper built with flag
`tracers` when the tracer counter stands at `tid`. -/
def tracePre (tracers : Bool) (tid : Nat) (stk : String) : List Ev :=
  if tracers then
    [Ev.startTracer tid ("protectedEntryPoint: " ++ getStackTraceHolder_ stk)]
  else []

/-- Tracer-stop events emitted on exit of a wrapper built with flag
`tracers` for the span handle `tid`. -/
def tracePost (tracers : Bool) (tid : Nat) : List Ev :=
  if tracers then [Ev.stopTracer tid] else []

/-- Handler-call events of a wrapper run whose wrapped call had outcome
`r`: none on a normal return, one call of `errorHandlerFn_` with the
thrown value on a throw. -/
def handlerEvs (g : Guard) (r : Except Val Val) : List Ev :=
  match r with
  | Except.ok _ => []
  | Except.error e => [Ev.call g.errorHandlerFn_ (Val.guardRef g.uid) [e]]

/-- Outcome of a wrapper run whose wrapped call had outcome `r` and whose
handler behaves as `hbeh`: normal returns pass through; a thrown `e` is
re-thrown after the handler runs, unless the handler itself throws, in
which case the handler's exception propagates instead (JavaScript `catch`
block semantics). -/
def wrapperResult (hbeh : Val → List Val → Except Val Val) (g : Guard)
    (r : Except Val Val) : Except Val Val :=
  match r with
  | Except.ok v => Except.ok v
  | Except.error e =>
    match hbeh (Val.guardRef g.uid) [e] with
    | Except.ok _ => Except.error e
    | Except.error e2 => Except.error e2

/-- The state in which a wrapper built with flag `tracers` runs its
wrapped call: the tracer counter is bumped when a span was started. -/
def bumpTracer (tracers : Bool) (st : St) : St :=
  if tracers then { st with nextTracer := st.nextTracer + 1 } else st

/-- Handler behaviour used in concrete runs: returns normally. -/
def okHandlerBeh : Val → List Val → Except Val Val :=
  fun _ _ => Except.ok Val.undef

/-- A handler behaviour that itself throws the string `"boom"`. -/
def throwingHandlerBeh : Val → List Val → Except Val Val :=
  fun _ _ => Except.error (Val.str "boom")

/-- A base behaviour that throws the string `"x"`. -/
def throwXBeh : Val → List Val → Except Val Val :=
  fun _ _ => Except.error (Val.str "x")

/-- A base behaviour that returns the number 3. -/
def ok3Beh : Val → List Val → Except Val Val :=
  fun _ _ => Except.ok (Val.num 3)

/-- A scheduler behaviour returning the timer id 42. -/
def sched42Beh : Val → List Val → Except Val Val :=
  fun _ _ => Except.ok (Val.num 42)

/-- Concrete world for witnesses: a normally-returning handler at 0, a
throwing function at 1, a normally-returning function at 2 and a
scheduler at 3 (the window scheduler slots point at it). -/
def demoSt : St :=
  { heap :=
      [ { code := FnCode.base okHandlerBeh, props := [], hasCall := true }
      , { code := FnCode.base throwXBeh, props := [], hasCall := true }
      , { code := FnCode.base ok3Beh, props := [], hasCall := true }
      , { code := FnCode.base sched42Beh, props := [], hasCall := true } ]
    nextTracer := 0
    stackFn := fun _ => "line1\nline2"
    winSetTimeout := 3
    winSetInterval := 3 }

/-- Concrete world whose handler (at 0) itself throws; the protected
function at 1 throws `"x"`. -/
def demoStBadHandler : St :=
  { heap :=
      [ { code := FnCode.base throwingHandlerBeh, props := [], hasCall := true }
      , { code := FnCode.base throwXBeh, props := [], hasCall := true } ]
    nextTracer := 0
    stackFn := fun _ => ""
    winSetTimeout := 0
    winSetInterval := 0 }

/-- A guard over `demoSt`: uid 1, handler at 0, tracing off. -/
def demoGuard : Guard :=
  { uid := 1, errorHandlerFn_ := 0, addTracersToProtectedFunctions_ := false }

/-- The same guard with tracing on. -/
def demoGuardT : Guard :=
  { uid := 1, errorHandlerFn_ := 0, addTracersToProtectedFunctions_ := true }

/-- A guard over `demoStBadHandler`: uid 2, handler at 0, tracing off. -/
def demoGuardBad : Guard :=
  { uid := 2, errorHandlerFn_ := 0, addTracersToProtectedFunctions_ := false }

/-- An index at which a list lookup succeeds is in bounds. -/
theorem getElem?_some_lt {α : Type} {l : List α} {i : Nat} {a : α}
    (h : l[i]? = some a) : i < l.length := by
  by_contra hn
  push_neg at hn
  rw [List.getElem?_eq_none hn] at h
  exact Option.noConfusion h

/-- Index the freshly appended element of a set-then-append heap update. -/
theorem getElem?_setAppend_new {α : Type} (l : List α) (i : Nat) (b w : α) :
    ((l.set i b) ++ [w])[l.length]? = some w := by
  have hlen : (l.set i b).length = l.length := List.length_set l i b
  calc ((l.set i b) ++ [w])[l.length]?
      = ((l.set i b) ++ [w])[(l.set i b).length]? := by rw [hlen]
    _ = some w := List.getElem?_concat_length _ _

/-- Index the updated slot of a set-then-append heap update. -/
theorem getElem?_setAppend_self {α : Type} (l : List α) (i : Nat) (b w : α)
    (h : i < l.length) : ((l.set i b) ++ [w])[i]? = some b := by
  rw [List.getElem?_append_left (by simpa using h)]
  exact List.getElem?_set_self h

/-- Index an untouched slot of a set-then-append heap update. -/
theorem getElem?_setAppend_other {α : Type} (l : List α) (i j : Nat) (b w : α)
    (hne : j ≠ i) (hj : j < l.length) : ((l.set i b) ++ [w])[j]? = l[j]? := by
  rw [List.getElem?_append_left (by simpa using hj)]
  exact List.getElem?_set_ne (Ne.symm hne)

/-- Calling a base function: one call event, state unchanged, outcome
given by the behaviour. -/
theorem invokeFn_base (fuel : Nat) (st : St) (fid : Nat)
    (beh : Val → List Val → Except Val Val) (props : List (String × Nat)) (hc : Bool)
    (h : st.heap[fid]? = some { code := FnCode.base beh, props := props, hasCall := hc })
    (thisv : Val) (args : List Val) :
    invokeFn (fuel + 1) st fid thisv args = (st, [Ev.call fid thisv args], beh thisv args) := by
  simp [invokeFn, h]

/-- `protectEntryPoint` on a function already carrying a wrapper under the
current memo name: returns it, no state change, no events. -/
theorem protectEntryPoint_cached (g : Guard) (st : St) (fn : Nat) (fo : FnObj) (wid : Nat)
    (hf : st.heap[fn]? = some fo)
    (hhit : fo.props.lookup (protectedFnName g) = some wid) :
    protectEntryPoint g st fn = (st, [], wid) := by
  simp [protectEntryPoint, hf, hhit]

/-- `protectEntryPoint` on a function with no wrapper under the current
memo name: builds the wrapper, appends it to the heap, attaches it to the
function's property table under the memo name, and returns its reference
(the old heap length). -/
theorem protectEntryPoint_fresh (g : Guard) (st : St) (fn : Nat) (fo : FnObj)
    (hf : st.heap[fn]? = some fo)
    (hfresh : fo.props.lookup (protectedFnName g) = none) :
    protectEntryPoint g st fn =
      ({ st with heap :=
            (st.heap.set fn
                { fo with props := (protectedFnName g, st.heap.length) :: fo.props })
              ++ [(getProtectedFunction g st fn).2] },
       (getProtectedFunction g st fn).1, st.heap.length) := by
  simp [protectEntryPoint, hf, hfresh]

/-- Unfolding `bumpTracer` at `false`. -/
theorem bumpTracer_false (st : St) : bumpTracer false st = st := rfl

/-- Unfolding `bumpTracer` at `true`. -/
theorem bumpTracer_true (st : St) :
    bumpTracer true st = { st with nextTracer := st.nextTracer + 1 } := rfl

/-- One step of a protected wrapper whose wrapped call returns normally:
the result passes through, no handler call, tracer start/stop events
bracket the wrapped call's events. -/
theorem invokeFn_protectedW_ok (fuel : Nat) (st : St) (wid inner : Nat) (g : Guard)
    (tracers : Bool) (stk : String) (wprops : List (String × Nat)) (whc : Bool)
    (thisv : Val) (args : List Val) (stI : St) (evsI : List Ev) (v : Val)
    (hw : st.heap[wid]? =
      some { code := FnCode.protectedW g tracers stk inner, props := wprops, hasCall := whc })
    (hI : invokeFn fuel (bumpTracer tracers st) inner thisv args = (stI, evsI, Except.ok v)) :
    invokeFn (Nat.succ fuel) st wid thisv args =
      (stI, tracePre tracers st.nextTracer stk ++ evsI ++ tracePost tracers st.nextTracer,
       Except.ok v) := by
  cases tracers with
  | false =>
    rw [bumpTracer_false] at hI
    simp only [invokeFn, hw]
    simp [hI, tracePre, tracePost]
  | true =>
    rw [bumpTracer_true] at hI
    simp only [invokeFn, hw]
    simp [hI, tracePre, tracePost]

/-- One step of a protected wrapper whose wrapped call throws `e`: the
handler is called with `e` on the guard; if the handler returns normally
the wrapper re-throws `e`, and if the handler throws `e2` that exception
propagates instead; tracer start/stop events bracket everything. -/
theorem invokeFn_protectedW_err (fuel : Nat) (st : St) (wid inner : Nat) (g : Guard)
    (tracers : Bool) (stk : String) (wprops : List (String × Nat)) (whc : Bool)
    (thisv : Val) (args : List Val) (stI : St) (evsI : List Ev) (e : Val)
    (stH : St) (evsH : List Ev) (rH : Except Val Val)
    (hw : st.heap[wid]? =
      some { code := FnCode.protectedW g tracers stk inner, props := wprops, hasCall := whc })
    (hI : invokeFn fuel (bumpTracer tracers st) inner thisv args = (stI, evsI, Except.error e))
    (hH : invokeFn fuel stI g.errorHandlerFn_ (Val.guardRef g.uid) [e] = (stH, evsH, rH)) :
    invokeFn (Nat.succ fuel) st wid thisv args =
      (stH, tracePre tracers st.nextTracer stk ++ evsI ++ evsH ++ tracePost tracers st.nextTracer,
       match rH with
       | Except.ok _ => Except.error e
       | Except.error e2 => Except.error e2) := by
  cases tracers with
  | false =>
    rw [bumpTracer_false] at hI
    cases rH with
    | ok hv =>
      simp only [invokeFn, hw]
      simp [hI, hH, tracePre, tracePost]
    | error e2 =>
      simp only [invokeFn, hw]
      simp [hI, hH, tracePre, tracePost]
  | true =>
    rw [bumpTracer_true] at hI
    cases rH with
    | ok hv =>
      simp only [invokeFn, hw]
      simp [hI, hH, tracePre, tracePost]
    | error e2 =>
      simp only [invokeFn, hw]
      simp [hI, hH, tracePre, tracePost]

/-- Full characterization of one call of a protected wrapper whose wrapped
function and handler are base functions: the events are a tracer start
(when built with tracing), the wrapped call with the wrapper's receiver
and arguments, the handler call on a throw, and a tracer stop (when built
with tracing) — in that order — and the outcome is `wrapperResult`. -/
theorem invokeFn_wrapper (fuel : Nat) (st : St) (wid fn : Nat) (g : Guard)
    (tracers : Bool) (stk : String) (wprops : List (String × Nat)) (whc : Bool)
    (beh hbeh : Val → List Val → Except Val Val)
    (fprops hprops : List (String × Nat)) (fhc hhc : Bool)
    (hw : st.heap[wid]? =
      some { code := FnCode.protectedW g tracers stk fn, props := wprops, hasCall := whc })
    (hf : st.heap[fn]? = some { code := FnCode.base beh, props := fprops, hasCall := fhc })
    (hh : st.heap[g.errorHandlerFn_]? =
      some { code := FnCode.base hbeh, props := hprops, hasCall := hhc })
    (thisv : Val) (args : List Val) :
    invokeFn (fuel + 2) st wid thisv args =
      (bumpTracer tracers st,
       tracePre tracers st.nextTracer stk ++ [Ev.call fn thisv args]
         ++ handlerEvs g (beh thisv args) ++ tracePost tracers st.nextTracer,
       wrapperResult hbeh g (beh thisv args)) := by
  have hfB : (bumpTracer tracers st).heap[fn]?
      = some { code := FnCode.base beh, props := fprops, hasCall := fhc } := by
    cases tracers <;> simpa [bumpTracer] using hf
  have hhB : (bumpTracer tracers st).heap[g.errorHandlerFn_]?
      = some { code := FnCode.base hbeh, props := hprops, hasCall := hhc } := by
    cases tracers <;> simpa [bumpTracer] using hh
  have hI : invokeFn (fuel + 1) (bumpTracer tracers st) fn thisv args
      = (bumpTracer tracers st, [Ev.call fn thisv args], beh thisv args) :=
    invokeFn_base fuel _ fn beh fprops fhc hfB thisv args
  cases hb : beh thisv args with
  | ok v =>
    have := invokeFn_protectedW_ok (fuel + 1) st wid fn g tracers stk wprops whc
      thisv args (bumpTracer tracers st) [Ev.call fn thisv args] v hw (hb ▸ hI)
    simpa [handlerEvs, wrapperResult, hb] using this
  | error e =>
    have hH : invokeFn (fuel + 1) (bumpTracer tracers st) g.errorHandlerFn_
        (Val.guardRef g.uid) [e]
        = (bumpTracer tracers st, [Ev.call g.errorHandlerFn_ (Val.guardRef g.uid) [e]],
           hbeh (Val.guardRef g.uid) [e]) :=
      invokeFn_base fuel _ g.errorHandlerFn_ hbeh hprops hhc hhB _ _
    cases hhb : hbeh (Val.guardRef g.uid) [e] with
    | ok hv =>
      have := invokeFn_protectedW_err (fuel + 1) st wid fn g tracers stk wprops whc
        thisv args (bumpTracer tracers st) [Ev.call fn thisv args] e
        (bumpTracer tracers st) [Ev.call g.errorHandlerFn_ (Val.guardRef g.uid) [e]]
        (Except.ok hv) hw (hb ▸ hI) (hhb ▸ hH)
      simpa [handlerEvs, wrapperResult, hb, hhb] using this
    | error e2 =>
      have := invokeFn_protectedW_err (fuel + 1) st wid fn g tracers stk wprops whc
        thisv args (bumpTracer tracers st) [Ev.call fn thisv args] e
        (bumpTracer tracers st) [Ev.call g.errorHandlerFn_ (Val.guardRef g.uid) [e]]
        (Except.error e2) hw (hb ▸ hI) (hhb ▸ hH)
      simpa [handlerEvs, wrapperResult, hb, hhb] using this

/-- Closed form of `getProtectedFunction`: the wrapper captures the
guard, the current flag, and — with tracing — the depth-15 stack
capture. -/
theorem getProtectedFunction_eq (g : Guard) (st : St) (fn : Nat) :
    getProtectedFunction g st fn =
      ((if g.addTracersToProtectedFunctions_ then [Ev.captureStack 15] else []),
       { code := FnCode.protectedW g g.addTracersToProtectedFunctions_
           (if g.addTracersToProtectedFunctions_ then st.stackFn 15 else "") fn
         props := []
         hasCall := true }) := by
  by_cases h : g.addTracersToProtectedFunctions_ <;> simp [getProtectedFunction, h]

/-- Tracer-start events are not calls. -/
theorem filter_callTo_tracePre (fid : Nat) (tracers : Bool) (tid : Nat) (stk : String) :
    (tracePre tracers tid stk).filter (isCallTo fid) = [] := by
  cases tracers <;> simp [tracePre, isCallTo]

/-- Tracer-stop events are not calls. -/
theorem filter_callTo_tracePost (fid : Nat) (tracers : Bool) (tid : Nat) :
    (tracePost tracers tid).filter (isCallTo fid) = [] := by
  cases tracers <;> simp [tracePost, isCallTo]

/-- The handler events are exactly the calls of the handler in them. -/
theorem filter_callTo_handlerEvs_self (g : Guard) (r : Except Val Val) :
    (handlerEvs g r).filter (isCallTo g.errorHandlerFn_) = handlerEvs g r := by
  cases r <;> simp [handlerEvs, isCallTo]

/-- The handler events contain no call of a function other than the
handler. -/
theorem filter_callTo_handlerEvs_other (g : Guard) (r : Except Val Val) (fid : Nat)
    (h : fid ≠ g.errorHandlerFn_) :
    (handlerEvs g r).filter (isCallTo fid) = [] := by
  cases r <;> simp [handlerEvs, isCallTo, Ne.symm h]

/-- Handler events contain no tracer starts. -/
theorem filter_start_handlerEvs (g : Guard) (r : Except Val Val) :
    (handlerEvs g r).filter isStartEv = [] := by
  cases r <;> simp [handlerEvs, isStartEv]

/-- Handler events contain no tracer stops. -/
theorem filter_stop_handlerEvs (g : Guard) (r : Except Val Val) :
    (handlerEvs g r).filter isStopEv = [] := by
  cases r <;> simp [handlerEvs, isStopEv]

/-- Handler events contain no stack captures. -/
theorem filter_capture_handlerEvs (g : Guard) (r : Except Val Val) :
    (handlerEvs g r).filter isCaptureEv = [] := by
  cases r <;> simp [handlerEvs, isCaptureEv]

/-- Composite characterization: `protectEntryPoint` on a base function
with no wrapper yet, followed by one invocation of the returned wrapper.
The build emits exactly a depth-15 stack capture when tracing is on; the
invocation emits a tracer start (tracing only), the wrapped call with the
given receiver and arguments, the handler call on a throw, and a tracer
stop (tracing only), and its outcome is `wrapperResult`. -/
theorem protect_invoke_base (fuel : Nat) (st : St) (fn : Nat) (g : Guard)
    (beh hbeh : Val → List Val → Except Val Val)
    (fprops hprops : List (String × Nat)) (fhc hhc : Bool)
    (hf : st.heap[fn]? = some { code := FnCode.base beh, props := fprops, hasCall := fhc })
    (hfresh : fprops.lookup (protectedFnName g) = none)
    (hh : st.heap[g.errorHandlerFn_]? =
      some { code := FnCode.base hbeh, props := hprops, hasCall := hhc })
    (hne : fn ≠ g.errorHandlerFn_)
    (thisv : Val) (args : List Val) :
    (protectEntryPoint g st fn).2.1
        = (if g.addTracersToProtectedFunctions_ then [Ev.captureStack 15] else []) ∧
    invokeFn (fuel + 2) (protectEntryPoint g st fn).1 (protectEntryPoint g st fn).2.2 thisv args
      = (bumpTracer g.addTracersToProtectedFunctions_ (protectEntryPoint g st fn).1,
         tracePre g.addTracersToProtectedFunctions_ st.nextTracer
             (if g.addTracersToProtectedFunctions_ then st.stackFn 15 else "")
           ++ [Ev.call fn thisv args] ++ handlerEvs g (beh thisv args)
           ++ tracePost g.addTracersToProtectedFunctions_ st.nextTracer,
         wrapperResult hbeh g (beh thisv args)) := by
  have hltf : fn < st.heap.length := getElem?_some_lt hf
  have hlth : g.errorHandlerFn_ < st.heap.length := getElem?_some_lt hh
  rw [protectEntryPoint_fresh g st fn _ hf hfresh, getProtectedFunction_eq]
  refine ⟨rfl, ?_⟩
  set fo1 : FnObj :=
    { code := FnCode.base beh
      props := (protectedFnName g, st.heap.length) :: fprops
      hasCall := fhc } with hfo1
  set wobj : FnObj :=
    { code := FnCode.protectedW g g.addTracersToProtectedFunctions_
        (if g.addTracersToProtectedFunctions_ then st.stackFn 15 else "") fn
      props := []
      hasCall := true } with hwobj
  set st1 : St :=
    { st with heap :=
        (st.heap.set fn
          { code := FnCode.base beh
            props := (protectedFnName g, st.heap.length) :: fprops
            hasCall := fhc }) ++ [wobj] } with hst1
  have hw1 : st1.heap[st.heap.length]? = some wobj := by
    rw [hst1]
    exact getElem?_setAppend_new st.heap fn fo1 wobj
  have hf1 : st1.heap[fn]? = some fo1 := by
    simpa [hst1] using getElem?_setAppend_self st.heap fn fo1 wobj hltf
  have hh1 : st1.heap[g.errorHandlerFn_]? =
      some { code := FnCode.base hbeh, props := hprops, hasCall := hhc } := by
    have := getElem?_setAppend_other st.heap fn g.errorHandlerFn_ fo1 wobj (Ne.symm hne) hlth
    simpa [hst1, hh] using this
  have := invokeFn_wrapper fuel st1 st.heap.length fn g
    g.addTracersToProtectedFunctions_
    (if g.addTracersToProtectedFunctions_ then st.stackFn 15 else "")
    [] true beh hbeh ((protectedFnName g, st.heap.length) :: fprops) hprops fhc hhc
    (by rw [hwobj] at hw1; exact hw1) (by rw [hfo1] at hf1; exact hf1) hh1 thisv args
  simpa [hst1] using this

/-- C7: for every function that returns normally with value `v`, invoking
the wrapper returned by `protectEntryPoint` with any receiver and
arguments invokes the function exactly once with that same receiver and
those same arguments, returns `v` unchanged, and never invokes the
handler. -/
theorem protect_normal_return (fuel : Nat) (st : St) (fn : Nat) (g : Guard)
    (beh hbeh : Val → List Val → Except Val Val)
    (fprops hprops : List (String × Nat)) (fhc hhc : Bool) (thisv v : Val) (args : List Val)
    (hf : st.heap[fn]? = some { code := FnCode.base beh, props := fprops, hasCall := fhc })
    (hfresh : fprops.lookup (protectedFnName g) = none)
    (hh : st.heap[g.errorHandlerFn_]? =
      some { code := FnCode.base hbeh, props := hprops, hasCall := hhc })
    (hne : fn ≠ g.errorHandlerFn_)
    (hok : beh thisv args = Except.ok v) :
    (invokeFn (fuel + 2) (protectEntryPoint g st fn).1 (protectEntryPoint g st fn).2.2
        thisv args).2.2 = Except.ok v ∧
    ((invokeFn (fuel + 2) (protectEntryPoint g st fn).1 (protectEntryPoint g st fn).2.2
        thisv args).2.1.filter (isCallTo fn)) = [Ev.call fn thisv args] ∧
    ((invokeFn (fuel + 2) (protectEntryPoint g st fn).1 (protectEntryPoint g st fn).2.2
        thisv args).2.1.filter (isCallTo g.errorHandlerFn_)) = [] := by
  obtain ⟨hbuild, hrun⟩ := protect_invoke_base fuel st fn g beh hbeh fprops hprops fhc hhc
    hf hfresh hh hne thisv args
  rw [hrun]
  refine ⟨by simp [wrapperResult, hok], ?_, ?_⟩
  · rw [List.filter_append, List.filter_append, List.filter_append,
      filter_callTo_tracePre, filter_callTo_tracePost,
      filter_callTo_handlerEvs_other g (beh thisv args) fn hne]
    simp [isCallTo]
  · rw [List.filter_append, List.filter_append, List.filter_append,
      filter_callTo_tracePre, filter_callTo_tracePost]
    simp [handlerEvs, hok, isCallTo, hne]

/-- C7 witness: the wrapper of the function at 2 of `demoSt` (which
returns the number 3) returns 3, calls it exactly once with the given
receiver and argument, and never calls the handler. -/
theorem protect_normal_return_witness :
    (invokeFn 2 (protectEntryPoint demoGuard demoSt 2).1 (protectEntryPoint demoGuard demoSt 2).2.2
        (Val.num 9) [Val.num 1]).2.2 = Except.ok (Val.num 3) ∧
    ((invokeFn 2 (protectEntryPoint demoGuard demoSt 2).1 (protectEntryPoint demoGuard demoSt 2).2.2
        (Val.num 9) [Val.num 1]).2.1.filter (isCallTo 2)) = [Ev.call 2 (Val.num 9) [Val.num 1]] ∧
    ((invokeFn 2 (protectEntryPoint demoGuard demoSt 2).1 (protectEntryPoint demoGuard demoSt 2).2.2
        (Val.num 9) [Val.num 1]).2.1.filter (isCallTo 0)) = [] :=
  protect_normal_return 0 demoSt 2 demoGuard ok3Beh okHandlerBeh [] [] true true
    (Val.num 9) (Val.num 3) [Val.num 1] rfl rfl rfl (by decide) rfl

/-- C1 fails as stated: with a guard whose handler itself throws, the
wrapper's caller observes the handler's exception (`"boom"`), not the
value the protected function threw (`"x"`). -/
theorem protect_throw_same_value_cex :
    throwXBeh Val.undef [] = Except.error (Val.str "x") ∧
    (invokeFn 2 (protectEntryPoint demoGuardBad demoStBadHandler 1).1
        (protectEntryPoint demoGuardBad demoStBadHandler 1).2.2 Val.undef []).2.2
      = Except.error (Val.str "boom") ∧
    Val.str "boom" ≠ Val.str "x" :=
  ⟨rfl, rfl, by decide⟩

/-- C1 (amended): for every function that throws `e` and every guard
whose handler returns normally on `e`, the wrapper throws the same value
`e` to its caller, and the handler is invoked exactly once with `e`,
before the throw surfaces (its call event sits between the wrapped call
and the wrapper's exit). -/
theorem protect_throw_reports_once_then_rethrows (fuel : Nat) (st : St) (fn : Nat) (g : Guard)
    (beh hbeh : Val → List Val → Except Val Val)
    (fprops hprops : List (String × Nat)) (fhc hhc : Bool) (thisv e hv : Val) (args : List Val)
    (hf : st.heap[fn]? = some { code := FnCode.base beh, props := fprops, hasCall := fhc })
    (hfresh : fprops.lookup (protectedFnName g) = none)
    (hh : st.heap[g.errorHandlerFn_]? =
      some { code := FnCode.base hbeh, props := hprops, hasCall := hhc })
    (hne : fn ≠ g.errorHandlerFn_)
    (hthrow : beh thisv args = Except.error e)
    (hhok : hbeh (Val.guardRef g.uid) [e] = Except.ok hv) :
    (invokeFn (fuel + 2) (protectEntryPoint g st fn).1 (protectEntryPoint g st fn).2.2
        thisv args).2.2 = Except.error e ∧
    ((invokeFn (fuel + 2) (protectEntryPoint g st fn).1 (protectEntryPoint g st fn).2.2
        thisv args).2.1.filter (isCallTo g.errorHandlerFn_))
      = [Ev.call g.errorHandlerFn_ (Val.guardRef g.uid) [e]] ∧
    (invokeFn (fuel + 2) (protectEntryPoint g st fn).1 (protectEntryPoint g st fn).2.2
        thisv args).2.1
      = tracePre g.addTracersToProtectedFunctions_ st.nextTracer
          (if g.addTracersToProtectedFunctions_ then st.stackFn 15 else "")
        ++ [Ev.call fn thisv args]
        ++ [Ev.call g.errorHandlerFn_ (Val.guardRef g.uid) [e]]
        ++ tracePost g.addTracersToProtectedFunctions_ st.nextTracer := by
  obtain ⟨hbuild, hrun⟩ := protect_invoke_base fuel st fn g beh hbeh fprops hprops fhc hhc
    hf hfresh hh hne thisv args
  rw [hrun]
  refine ⟨by simp [wrapperResult, hthrow, hhok], ?_, ?_⟩
  · rw [List.filter_append, List.filter_append, List.filter_append,
      filter_callTo_tracePre, filter_callTo_tracePost]
    simp [handlerEvs, hthrow, isCallTo, hne]
  · simp [handlerEvs, hthrow]

/-- C1 (amended) witness: the wrapper of the throwing function at 1 of
`demoSt` re-throws `"x"`, with exactly one handler call carrying it. -/
theorem protect_throw_reports_once_then_rethrows_witness :
    (invokeFn 2 (protectEntryPoint demoGuard demoSt 1).1 (protectEntryPoint demoGuard demoSt 1).2.2
        Val.undef []).2.2 = Except.error (Val.str "x") ∧
    ((invokeFn 2 (protectEntryPoint demoGuard demoSt 1).1 (protectEntryPoint demoGuard demoSt 1).2.2
        Val.undef []).2.1.filter (isCallTo 0))
      = [Ev.call 0 (Val.guardRef 1) [Val.str "x"]] ∧
    (invokeFn 2 (protectEntryPoint demoGuard demoSt 1).1 (protectEntryPoint demoGuard demoSt 1).2.2
        Val.undef []).2.1
      = tracePre false 0 "" ++ [Ev.call 1 Val.undef []]
        ++ [Ev.call 0 (Val.guardRef 1) [Val.str "x"]] ++ tracePost false 0 :=
  protect_throw_reports_once_then_rethrows 0 demoSt 1 demoGuard throwXBeh okHandlerBeh
    [] [] true true Val.undef (Val.str "x") Val.undef [] rfl rfl rfl (by decide) rfl rfl

/-- C4 fails as stated: the exception the caller observes is not always
the value the protected function threw — when the handler itself throws,
its exception replaces the original. -/
theorem protect_rethrow_unchanged_cex :
    throwXBeh (Val.num 0) [] = Except.error (Val.str "x") ∧
    (invokeFn 2 (protectEntryPoint demoGuardBad demoStBadHandler 1).1
        (protectEntryPoint demoGuardBad demoStBadHandler 1).2.2 (Val.num 0) []).2.2
      ≠ Except.error (Val.str "x") := by
  refine ⟨rfl, ?_⟩
  intro h
  rw [show (invokeFn 2 (protectEntryPoint demoGuardBad demoStBadHandler 1).1
      (protectEntryPoint demoGuardBad demoStBadHandler 1).2.2 (Val.num 0) []).2.2
    = Except.error (Val.str "boom") from rfl] at h
  exact absurd (Except.error.inj h) (by decide)

/-- C4 (amended): on a throw of `e`, the caller observes `e` itself
whenever the handler returns normally, and the handler's own exception
when the handler throws; in no case does the wrapper convert the throw
into a normal return. -/
theorem protect_throw_propagation (fuel : Nat) (st : St) (fn : Nat) (g : Guard)
    (beh hbeh : Val → List Val → Except Val Val)
    (fprops hprops : List (String × Nat)) (fhc hhc : Bool) (thisv e : Val) (args : List Val)
    (hf : st.heap[fn]? = some { code := FnCode.base beh, props := fprops, hasCall := fhc })
    (hfresh : fprops.lookup (protectedFnName g) = none)
    (hh : st.heap[g.errorHandlerFn_]? =
      some { code := FnCode.base hbeh, props := hprops, hasCall := hhc })
    (hne : fn ≠ g.errorHandlerFn_)
    (hthrow : beh thisv args = Except.error e) :
    (invokeFn (fuel + 2) (protectEntryPoint g st fn).1 (protectEntryPoint g st fn).2.2
        thisv args).2.2
      = Except.error (match hbeh (Val.guardRef g.uid) [e] with
          | Except.ok _ => e
          | Except.error e2 => e2) ∧
    ∀ v, (invokeFn (fuel + 2) (protectEntryPoint g st fn).1 (protectEntryPoint g st fn).2.2
        thisv args).2.2 ≠ Except.ok v := by
  obtain ⟨hbuild, hrun⟩ := protect_invoke_base fuel st fn g beh hbeh fprops hprops fhc hhc
    hf hfresh hh hne thisv args
  rw [hrun]
  cases hhb : hbeh (Val.guardRef g.uid) [e] with
  | ok hv => exact ⟨by simp [wrapperResult, hthrow, hhb], by simp [wrapperResult, hthrow, hhb]⟩
  | error e2 => exact ⟨by simp [wrapperResult, hthrow, hhb], by simp [wrapperResult, hthrow, hhb]⟩

/-- C4 (amended) witness: with the throwing handler of
`demoStBadHandler`, the caller observes the handler's `"boom"`, and the
outcome is still a throw. -/
theorem protect_throw_propagation_witness :
    (invokeFn 2 (protectEntryPoint demoGuardBad demoStBadHandler 1).1
        (protectEntryPoint demoGuardBad demoStBadHandler 1).2.2 (Val.num 1) []).2.2
      = Except.error (Val.str "boom") ∧
    ∀ v, (invokeFn 2 (protectEntryPoint demoGuardBad demoStBadHandler 1).1
        (protectEntryPoint demoGuardBad demoStBadHandler 1).2.2 (Val.num 1) []).2.2
      ≠ Except.ok v :=
  protect_throw_propagation 0 demoStBadHandler 1 demoGuardBad throwXBeh throwingHandlerBeh
    [] [] true true (Val.num 1) (Val.str "x") [] rfl rfl rfl (by decide) rfl

/-- C3: every invocation of a wrapper built while tracing was enabled
starts exactly one trace span (as its first event, before the wrapped
call) and stops that same span exactly once as its last event — on every
exit path: the wrapped behaviour and the handler behaviour are arbitrary,
so this covers a normal return, a throw, and a throw with a handler that
itself throws. -/
theorem tracing_brackets_every_invocation (fuel : Nat) (st : St) (fn : Nat) (g : Guard)
    (beh hbeh : Val → List Val → Except Val Val)
    (fprops hprops : List (String × Nat)) (fhc hhc : Bool) (thisv : Val) (args : List Val)
    (hf : st.heap[fn]? = some { code := FnCode.base beh, props := fprops, hasCall := fhc })
    (hfresh : fprops.lookup (protectedFnName g) = none)
    (hh : st.heap[g.errorHandlerFn_]? =
      some { code := FnCode.base hbeh, props := hprops, hasCall := hhc })
    (hne : fn ≠ g.errorHandlerFn_)
    (htr : g.addTracersToProtectedFunctions_ = true) :
    (invokeFn (fuel + 2) (protectEntryPoint g st fn).1 (protectEntryPoint g st fn).2.2
        thisv args).2.1
      = Ev.startTracer st.nextTracer
            ("protectedEntryPoint: " ++ getStackTraceHolder_ (st.stackFn 15))
          :: ([Ev.call fn thisv args] ++ handlerEvs g (beh thisv args)
              ++ [Ev.stopTracer st.nextTracer]) ∧
    ((invokeFn (fuel + 2) (protectEntryPoint g st fn).1 (protectEntryPoint g st fn).2.2
        thisv args).2.1.filter isStartEv).length = 1 ∧
    ((invokeFn (fuel + 2) (protectEntryPoint g st fn).1 (protectEntryPoint g st fn).2.2
        thisv args).2.1.filter isStopEv).length = 1 := by
  obtain ⟨hbuild, hrun⟩ := protect_invoke_base fuel st fn g beh hbeh fprops hprops fhc hhc
    hf hfresh hh hne thisv args
  rw [hrun]
  refine ⟨by simp [tracePre, tracePost, htr], ?_, ?_⟩
  · simp [List.filter_append, tracePre, tracePost, htr, isStartEv, filter_start_handlerEvs]
  · simp [List.filter_append, tracePre, tracePost, htr, isStopEv, filter_stop_handlerEvs]

/-- C3 witness: with tracing on, the wrapper of the throwing function at
1 of `demoSt` emits exactly one start and one stop, bracketing the
wrapped call and the handler call. -/
theorem tracing_brackets_every_invocation_witness :
    (invokeFn 2 (protectEntryPoint demoGuardT demoSt 1).1 (protectEntryPoint demoGuardT demoSt 1).2.2
        Val.undef []).2.1
      = Ev.startTracer 0 ("protectedEntryPoint: " ++ getStackTraceHolder_ "line1\nline2")
          :: ([Ev.call 1 Val.undef []]
              ++ handlerEvs demoGuardT (throwXBeh Val.undef [])
              ++ [Ev.stopTracer 0]) ∧
    ((invokeFn 2 (protectEntryPoint demoGuardT demoSt 1).1 (protectEntryPoint demoGuardT demoSt 1).2.2
        Val.undef []).2.1.filter isStartEv).length = 1 ∧
    ((invokeFn 2 (protectEntryPoint demoGuardT demoSt 1).1 (protectEntryPoint demoGuardT demoSt 1).2.2
        Val.undef []).2.1.filter isStopEv).length = 1 :=
  tracing_brackets_every_invocation 0 demoSt 1 demoGuardT throwXBeh okHandlerBeh
    [] [] true true Val.undef [] rfl rfl rfl (by decide) rfl

/-- The output of `replaceNewlines` contains no newline characters: every
CR/LF sequence has been replaced by the placeholder. -/
theorem replaceNewlines_no_newline (l : List Char) :
    ((replaceNewlines l).data.all fun c => !(c == '\n' || c == '\r')) = true := by
  induction l using replaceNewlines.induct with
  | case1 => decide
  | case2 rest ih =>
    simp only [replaceNewlines, String.data_append, List.all_append, ih, Bool.and_true]
    decide
  | case3 rest hne ih =>
    simp only [replaceNewlines, String.data_append, List.all_append, ih, Bool.and_true]
    decide
  | case4 rest ih =>
    simp only [replaceNewlines, String.data_append, List.all_append, ih, Bool.and_true]
    decide
  | case5 c rest h1 h2 h3 ih =>
    simp only [replaceNewlines, String.data_append, List.all_append, ih, Bool.and_true]
    have hs : (String.singleton c).data = [c] := rfl
    rw [hs]
    simp only [List.all_cons, List.all_nil, Bool.and_true]
    simp [h2, h3]
    exact ⟨h3, h2⟩

/-- Toggling the tracer flag changes the memo property name (the two
names even have different lengths). -/
theorem protectedFnName_flag_ne (g : Guard) (b2 : Bool)
    (hne : g.addTracersToProtectedFunctions_ ≠ b2) :
    protectedFnName g ≠ protectedFnName (setAddTracersToProtectedFunctions g b2) := by
  intro h
  have hlen := congrArg String.length h
  simp only [protectedFnName, setAddTracersToProtectedFunctions, String.length_append] at hlen
  cases hb1 : g.addTracersToProtectedFunctions_ <;> cases hb2 : b2 <;>
    simp_all [show ("false" : String).length = 5 from rfl,
      show ("true" : String).length = 4 from rfl]

/-- C8: the wrapper build captures the stack exactly once, at wrap time,
with depth 15 — and only when tracing is enabled; an invocation of the
wrapper never captures the stack, starts its span (tracing only) under
the name `"protectedEntryPoint: "` followed by the marker-bracketed,
newline-replaced wrap-time stack, stops it (tracing only), and the full
span name contains no newline character. -/
theorem stack_capture_and_span_name (fuel : Nat) (st : St) (fn : Nat) (g : Guard)
    (beh hbeh : Val → List Val → Except Val Val)
    (fprops hprops : List (String × Nat)) (fhc hhc : Bool) (thisv : Val) (args : List Val)
    (hf : st.heap[fn]? = some { code := FnCode.base beh, props := fprops, hasCall := fhc })
    (hfresh : fprops.lookup (protectedFnName g) = none)
    (hh : st.heap[g.errorHandlerFn_]? =
      some { code := FnCode.base hbeh, props := hprops, hasCall := hhc })
    (hne : fn ≠ g.errorHandlerFn_) :
    (protectEntryPoint g st fn).2.1
        = (if g.addTracersToProtectedFunctions_ then [Ev.captureStack 15] else []) ∧
    ((invokeFn (fuel + 2) (protectEntryPoint g st fn).1 (protectEntryPoint g st fn).2.2
        thisv args).2.1.filter isCaptureEv) = [] ∧
    ((invokeFn (fuel + 2) (protectEntryPoint g st fn).1 (protectEntryPoint g st fn).2.2
        thisv args).2.1.filter isStartEv)
      = (if g.addTracersToProtectedFunctions_ then
          [Ev.startTracer st.nextTracer
            ("protectedEntryPoint: " ++ getStackTraceHolder_ (st.stackFn 15))]
         else []) ∧
    ((invokeFn (fuel + 2) (protectEntryPoint g st fn).1 (protectEntryPoint g st fn).2.2
        thisv args).2.1.filter isStopEv)
      = (if g.addTracersToProtectedFunctions_ then [Ev.stopTracer st.nextTracer] else []) ∧
    ((("protectedEntryPoint: " ++ getStackTraceHolder_ (st.stackFn 15)).data.all
        fun c => !(c == '\n' || c == '\r')) = true) := by
  obtain ⟨hbuild, hrun⟩ := protect_invoke_base fuel st fn g beh hbeh fprops hprops fhc hhc
    hf hfresh hh hne thisv args
  rw [hrun]
  refine ⟨hbuild, ?_, ?_, ?_, ?_⟩
  · cases hfl : g.addTracersToProtectedFunctions_ <;>
      simp [tracePre, tracePost, List.filter_append, isCaptureEv, filter_capture_handlerEvs]
  · cases hfl : g.addTracersToProtectedFunctions_ <;>
      simp [tracePre, tracePost, List.filter_append, isStartEv, filter_start_handlerEvs]
  · cases hfl : g.addTracersToProtectedFunctions_ <;>
      simp [tracePre, tracePost, List.filter_append, isStopEv, filter_stop_handlerEvs]
  · simp only [getStackTraceHolder_, String.data_append, List.all_append,
      replaceNewlines_no_newline, Bool.and_true]
    decide

/-- C8 witness: with tracing on over `demoSt` (wrap-time stack
`"line1\nline2"`), the build captures once at depth 15, the invocation
captures nothing, starts and stops one span with the marker name, and
that name has no newline left. -/
theorem stack_capture_and_span_name_witness :
    (protectEntryPoint demoGuardT demoSt 2).2.1 = [Ev.captureStack 15] ∧
    ((invokeFn 2 (protectEntryPoint demoGuardT demoSt 2).1
        (protectEntryPoint demoGuardT demoSt 2).2.2 Val.undef []).2.1.filter isCaptureEv) = [] ∧
    ((invokeFn 2 (protectEntryPoint demoGuardT demoSt 2).1
        (protectEntryPoint demoGuardT demoSt 2).2.2 Val.undef []).2.1.filter isStartEv)
      = [Ev.startTracer 0 ("protectedEntryPoint: " ++ getStackTraceHolder_ "line1\nline2")] ∧
    ((invokeFn 2 (protectEntryPoint demoGuardT demoSt 2).1
        (protectEntryPoint demoGuardT demoSt 2).2.2 Val.undef []).2.1.filter isStopEv)
      = [Ev.stopTracer 0] ∧
    ((("protectedEntryPoint: " ++ getStackTraceHolder_ "line1\nline2").data.all
        fun c => !(c == '\n' || c == '\r')) = true) :=
  stack_capture_and_span_name 0 demoSt 2 demoGuardT ok3Beh okHandlerBeh
    [] [] true true Val.undef [] rfl rfl rfl (by decide)

/-- C2: with the trace flag unchanged, a second `protectEntryPoint` on
the same function returns the identical wrapper reference, with no state
change and no events; the wrapper is stored in the function object's own
property table under the memo name, which depends only on the guard's
uid and the current flag. -/
theorem protectEntryPoint_memoized (g : Guard) (st : St) (fn : Nat) (fo : FnObj)
    (hf : st.heap[fn]? = some fo) :
    (protectEntryPoint g (protectEntryPoint g st fn).1 fn).2.2
        = (protectEntryPoint g st fn).2.2 ∧
    (protectEntryPoint g (protectEntryPoint g st fn).1 fn).1 = (protectEntryPoint g st fn).1 ∧
    (protectEntryPoint g (protectEntryPoint g st fn).1 fn).2.1 = [] ∧
    (∃ fo1, (protectEntryPoint g st fn).1.heap[fn]? = some fo1 ∧
        fo1.props.lookup (protectedFnName g) = some (protectEntryPoint g st fn).2.2) ∧
    (∀ g2 : Guard, g2.uid = g.uid →
        g2.addTracersToProtectedFunctions_ = g.addTracersToProtectedFunctions_ →
        protectedFnName g2 = protectedFnName g) := by
  have hkey : ∀ g2 : Guard, g2.uid = g.uid →
      g2.addTracersToProtectedFunctions_ = g.addTracersToProtectedFunctions_ →
      protectedFnName g2 = protectedFnName g := by
    intro g2 hu hb
    simp [protectedFnName, hu, hb]
  have hltf : fn < st.heap.length := getElem?_some_lt hf
  cases hlk : fo.props.lookup (protectedFnName g) with
  | some wid =>
    have h1 : protectEntryPoint g st fn = (st, [], wid) :=
      protectEntryPoint_cached g st fn fo wid hf hlk
    refine ⟨by simp [h1], by simp [h1], by simp [h1], ⟨fo, ?_, ?_⟩, hkey⟩
    · simp [h1, hf]
    · simp [h1, hlk]
  | none =>
    have h1 := protectEntryPoint_fresh g st fn fo hf hlk
    set fo1 : FnObj := { fo with props := (protectedFnName g, st.heap.length) :: fo.props }
      with hfo1
    set st1 : St := { st with heap :=
        (st.heap.set fn fo1) ++ [(getProtectedFunction g st fn).2] } with hst1
    have h1 : protectEntryPoint g st fn = (st1, (getProtectedFunction g st fn).1,
        st.heap.length) := by
      rw [h1]
    have hf1 : st1.heap[fn]? = some fo1 := by
      rw [hst1]
      exact getElem?_setAppend_self st.heap fn fo1 _ hltf
    have hlk1 : fo1.props.lookup (protectedFnName g) = some st.heap.length := by
      simp [hfo1, List.lookup]
    have h2 : protectEntryPoint g st1 fn = (st1, [], st.heap.length) :=
      protectEntryPoint_cached g st1 fn fo1 st.heap.length hf1 hlk1
    refine ⟨by simp [h1, h2], by simp [h1, h2], by simp [h1, h2], ⟨fo1, ?_, ?_⟩, hkey⟩
    · simp [h1, hf1]
    · simp [h1, hlk1]

/-- C2 witness: protecting the function at 1 of `demoSt` twice with the
same guard yields the same wrapper reference (4), no second-call events,
and the wrapper is recorded in the function's property table. -/
theorem protectEntryPoint_memoized_witness :
    (protectEntryPoint demoGuard (protectEntryPoint demoGuard demoSt 1).1 1).2.2
        = (protectEntryPoint demoGuard demoSt 1).2.2 ∧
    (protectEntryPoint demoGuard (protectEntryPoint demoGuard demoSt 1).1 1).1
        = (protectEntryPoint demoGuard demoSt 1).1 ∧
    (protectEntryPoint demoGuard (protectEntryPoint demoGuard demoSt 1).1 1).2.1 = [] ∧
    (∃ fo1, (protectEntryPoint demoGuard demoSt 1).1.heap[1]? = some fo1 ∧
        fo1.props.lookup (protectedFnName demoGuard)
          = some (protectEntryPoint demoGuard demoSt 1).2.2) ∧
    (∀ g2 : Guard, g2.uid = demoGuard.uid →
        g2.addTracersToProtectedFunctions_ = demoGuard.addTracersToProtectedFunctions_ →
        protectedFnName g2 = protectedFnName demoGuard) :=
  protectEntryPoint_memoized demoGuard demoSt 1
    { code := FnCode.base throwXBeh, props := [], hasCall := true } rfl

/-- C6: if the trace flag differs between two `protectEntryPoint` calls
on the same function (the second after `setAddTracersToProtectedFunctions`),
the two returned wrappers are distinct functions, and in the final state
each wrapper object still carries the flag value captured at its own
build time (the setter affected only the wrapper created afterwards). -/
theorem distinct_wrappers_per_flag (st : St) (fn : Nat) (g : Guard) (b2 : Bool) (fo : FnObj)
    (hf : st.heap[fn]? = some fo)
    (hneflag : g.addTracersToProtectedFunctions_ ≠ b2)
    (hfresh1 : fo.props.lookup (protectedFnName g) = none)
    (hfresh2 : fo.props.lookup
      (protectedFnName (setAddTracersToProtectedFunctions g b2)) = none) :
    (protectEntryPoint (setAddTracersToProtectedFunctions g b2)
        (protectEntryPoint g st fn).1 fn).2.2 ≠ (protectEntryPoint g st fn).2.2 ∧
    (∃ fo1, (protectEntryPoint (setAddTracersToProtectedFunctions g b2)
          (protectEntryPoint g st fn).1 fn).1.heap[(protectEntryPoint g st fn).2.2]?
        = some fo1 ∧
      fo1.code = FnCode.protectedW g g.addTracersToProtectedFunctions_
        (if g.addTracersToProtectedFunctions_ then st.stackFn 15 else "") fn) ∧
    (∃ fo2, (protectEntryPoint (setAddTracersToProtectedFunctions g b2)
          (protectEntryPoint g st fn).1 fn).1.heap[(protectEntryPoint
            (setAddTracersToProtectedFunctions g b2)
            (protectEntryPoint g st fn).1 fn).2.2]?
        = some fo2 ∧
      fo2.code = FnCode.protectedW (setAddTracersToProtectedFunctions g b2) b2
        (if b2 then st.stackFn 15 else "") fn) := by
  have hltf : fn < st.heap.length := getElem?_some_lt hf
  have h1 := protectEntryPoint_fresh g st fn fo hf hfresh1
  set fo1 : FnObj := { fo with props := (protectedFnName g, st.heap.length) :: fo.props }
    with hfo1
  set wobj1 : FnObj := (getProtectedFunction g st fn).2 with hwobj1
  set st1 : St := { st with heap := (st.heap.set fn fo1) ++ [wobj1] } with hst1
  have hf1 : st1.heap[fn]? = some fo1 := by
    rw [hst1]
    exact getElem?_setAppend_self st.heap fn fo1 wobj1 hltf
  have hlen1 : st1.heap.length = st.heap.length + 1 := by
    simp [hst1]
  have hnameNe := protectedFnName_flag_ne g b2 hneflag
  have hbeq : (protectedFnName (setAddTracersToProtectedFunctions g b2)
      == protectedFnName g) = false :=
    beq_eq_false_iff_ne.mpr (Ne.symm hnameNe)
  have hlk2 : fo1.props.lookup
      (protectedFnName (setAddTracersToProtectedFunctions g b2)) = none := by
    simp [hfo1, List.lookup, hbeq, hfresh2]
  have h2 := protectEntryPoint_fresh (setAddTracersToProtectedFunctions g b2) st1 fn fo1
    hf1 hlk2
  rw [h1, h2]
  refine ⟨by simp [hlen1], ⟨wobj1, ?_, ?_⟩, ⟨(getProtectedFunction
    (setAddTracersToProtectedFunctions g b2) st1 fn).2, ?_, ?_⟩⟩
  · have hother := getElem?_setAppend_other st1.heap fn st.heap.length
      { fo1 with props := (protectedFnName (setAddTracersToProtectedFunctions g b2),
          st1.heap.length) :: fo1.props }
      (getProtectedFunction (setAddTracersToProtectedFunctions g b2) st1 fn).2
      (Nat.ne_of_gt hltf) (by rw [hlen1]; exact Nat.lt_succ_self _)
    rw [hother, hst1]
    exact getElem?_setAppend_new st.heap fn fo1 wobj1
  · rw [hwobj1, getProtectedFunction_eq]
  · exact getElem?_setAppend_new st1.heap fn _ _
  · rw [getProtectedFunction_eq]
    simp [setAddTracersToProtectedFunctions, hst1]

/-- C6 witness: over `demoSt`, protecting the function at 1 first with
tracing off and then (after the setter) with tracing on yields distinct
wrappers 4 and 5, each carrying its own build-time flag. -/
theorem distinct_wrappers_per_flag_witness :
    (protectEntryPoint (setAddTracersToProtectedFunctions demoGuard true)
        (protectEntryPoint demoGuard demoSt 1).1 1).2.2
      ≠ (protectEntryPoint demoGuard demoSt 1).2.2 ∧
    (∃ fo1, (protectEntryPoint (setAddTracersToProtectedFunctions demoGuard true)
          (protectEntryPoint demoGuard demoSt 1).1 1).1.heap[(protectEntryPoint
            demoGuard demoSt 1).2.2]? = some fo1 ∧
      fo1.code = FnCode.protectedW demoGuard false "" 1) ∧
    (∃ fo2, (protectEntryPoint (setAddTracersToProtectedFunctions demoGuard true)
          (protectEntryPoint demoGuard demoSt 1).1 1).1.heap[(protectEntryPoint
            (setAddTracersToProtectedFunctions demoGuard true)
            (protectEntryPoint demoGuard demoSt 1).1 1).2.2]? = some fo2 ∧
      fo2.code = FnCode.protectedW (setAddTracersToProtectedFunctions demoGuard true)
        true "line1\nline2" 1) :=
  distinct_wrappers_per_flag demoSt 1 demoGuard true
    { code := FnCode.base throwXBeh, props := [], hasCall := true }
    rfl (by decide) rfl rfl

/-- C10: protecting an already-protected wrapper builds a new, distinct
wrapper around it — the memo key lives on the inner function, not on its
wrapper — and invoking the double wrapper of a function that throws `e`
(with a handler that returns normally) calls the handler exactly twice
with `e`, once per nesting level, and still re-throws `e`. -/
theorem nested_protection_reports_twice (fuel : Nat) (st : St) (fn : Nat) (g : Guard)
    (beh hbeh : Val → List Val → Except Val Val)
    (fprops hprops : List (String × Nat)) (fhc hhc : Bool) (thisv e hv : Val) (args : List Val)
    (hf : st.heap[fn]? = some { code := FnCode.base beh, props := fprops, hasCall := fhc })
    (hfresh : fprops.lookup (protectedFnName g) = none)
    (hh : st.heap[g.errorHandlerFn_]? =
      some { code := FnCode.base hbeh, props := hprops, hasCall := hhc })
    (hne : fn ≠ g.errorHandlerFn_)
    (hthrow : beh thisv args = Except.error e)
    (hhok : hbeh (Val.guardRef g.uid) [e] = Except.ok hv) :
    (protectEntryPoint g (protectEntryPoint g st fn).1 (protectEntryPoint g st fn).2.2).2.2
        ≠ (protectEntryPoint g st fn).2.2 ∧
    (invokeFn (fuel + 3)
        (protectEntryPoint g (protectEntryPoint g st fn).1 (protectEntryPoint g st fn).2.2).1
        (protectEntryPoint g (protectEntryPoint g st fn).1 (protectEntryPoint g st fn).2.2).2.2
        thisv args).2.2 = Except.error e ∧
    ((invokeFn (fuel + 3)
        (protectEntryPoint g (protectEntryPoint g st fn).1 (protectEntryPoint g st fn).2.2).1
        (protectEntryPoint g (protectEntryPoint g st fn).1 (protectEntryPoint g st fn).2.2).2.2
        thisv args).2.1.filter (isCallTo g.errorHandlerFn_))
      = [Ev.call g.errorHandlerFn_ (Val.guardRef g.uid) [e],
         Ev.call g.errorHandlerFn_ (Val.guardRef g.uid) [e]] := by
  have hltf : fn < st.heap.length := getElem?_some_lt hf
  have hlth : g.errorHandlerFn_ < st.heap.length := getElem?_some_lt hh
  have h1 := protectEntryPoint_fresh g st fn _ hf hfresh
  have hid1 : (protectEntryPoint g st fn).2.2 = st.heap.length := by rw [h1]
  have hlen1 : (protectEntryPoint g st fn).1.heap.length = st.heap.length + 1 := by
    rw [h1]
    simp
  have hstk : (protectEntryPoint g st fn).1.stackFn = st.stackFn := by rw [h1]
  have htr1 : (protectEntryPoint g st fn).1.nextTracer = st.nextTracer := by rw [h1]
  have hw1 : (protectEntryPoint g st fn).1.heap[st.heap.length]?
      = some (getProtectedFunction g st fn).2 := by
    rw [h1]
    exact getElem?_setAppend_new st.heap fn _ _
  have hf1 : (protectEntryPoint g st fn).1.heap[fn]?
      = some { code := FnCode.base beh
               props := (protectedFnName g, st.heap.length) :: fprops
               hasCall := fhc } := by
    rw [h1]
    exact getElem?_setAppend_self st.heap fn _ _ hltf
  have hh1 : (protectEntryPoint g st fn).1.heap[g.errorHandlerFn_]?
      = some { code := FnCode.base hbeh, props := hprops, hasCall := hhc } := by
    rw [h1]
    rw [getElem?_setAppend_other st.heap fn g.errorHandlerFn_ _ _ (Ne.symm hne) hlth]
    exact hh
  have hlkw : (getProtectedFunction g st fn).2.props.lookup (protectedFnName g) = none := by
    rw [getProtectedFunction_eq]
    rfl
  have h2 := protectEntryPoint_fresh g (protectEntryPoint g st fn).1 st.heap.length
    (getProtectedFunction g st fn).2 hw1 hlkw
  have hid2 : (protectEntryPoint g (protectEntryPoint g st fn).1 st.heap.length).2.2
      = st.heap.length + 1 := by
    rw [h2, hlen1]
  -- the two wrapper references are distinct
  have hdistinct :
      (protectEntryPoint g (protectEntryPoint g st fn).1 (protectEntryPoint g st fn).2.2).2.2
        ≠ (protectEntryPoint g st fn).2.2 := by
    rw [hid1, hid2]
    exact Nat.succ_ne_self _
  -- heap lookups in the final build state
  have hw2 : (protectEntryPoint g (protectEntryPoint g st fn).1 st.heap.length).1.heap[
      st.heap.length + 1]?
      = some (getProtectedFunction g (protectEntryPoint g st fn).1 st.heap.length).2 := by
    rw [h2, ← hlen1]
    exact getElem?_setAppend_new (protectEntryPoint g st fn).1.heap st.heap.length _ _
  have hw1f : (protectEntryPoint g (protectEntryPoint g st fn).1 st.heap.length).1.heap[
      st.heap.length]?
      = some { (getProtectedFunction g st fn).2 with
          props := (protectedFnName g, (protectEntryPoint g st fn).1.heap.length)
            :: (getProtectedFunction g st fn).2.props } := by
    rw [h2]
    exact getElem?_setAppend_self (protectEntryPoint g st fn).1.heap st.heap.length _ _
      (by rw [hlen1]; exact Nat.lt_succ_self _)
  have hf2 : (protectEntryPoint g (protectEntryPoint g st fn).1 st.heap.length).1.heap[fn]?
      = some { code := FnCode.base beh
               props := (protectedFnName g, st.heap.length) :: fprops
               hasCall := fhc } := by
    rw [h2]
    rw [getElem?_setAppend_other (protectEntryPoint g st fn).1.heap st.heap.length fn _ _
      (Nat.ne_of_lt hltf) (by rw [hlen1]; exact Nat.lt_succ_of_lt hltf)]
    exact hf1
  have hh2 : (protectEntryPoint g (protectEntryPoint g st fn).1 st.heap.length).1.heap[
      g.errorHandlerFn_]?
      = some { code := FnCode.base hbeh, props := hprops, hasCall := hhc } := by
    rw [h2]
    rw [getElem?_setAppend_other (protectEntryPoint g st fn).1.heap st.heap.length
      g.errorHandlerFn_ _ _ (Nat.ne_of_lt hlth) (by rw [hlen1]; exact Nat.lt_succ_of_lt hlth)]
    exact hh1
  -- expose the wrapper codes
  have hw1fx : (protectEntryPoint g (protectEntryPoint g st fn).1 st.heap.length).1.heap[
      st.heap.length]?
      = some { code := FnCode.protectedW g g.addTracersToProtectedFunctions_
                 (if g.addTracersToProtectedFunctions_ then st.stackFn 15 else "") fn
               props := [(protectedFnName g, (protectEntryPoint g st fn).1.heap.length)]
               hasCall := true } := by
    rw [hw1f, getProtectedFunction_eq]
  have hw2x : (protectEntryPoint g (protectEntryPoint g st fn).1 st.heap.length).1.heap[
      st.heap.length + 1]?
      = some { code := FnCode.protectedW g g.addTracersToProtectedFunctions_
                 (if g.addTracersToProtectedFunctions_ then st.stackFn 15 else "")
                 st.heap.length
               props := []
               hasCall := true } := by
    rw [hw2, getProtectedFunction_eq, hstk]
  refine ⟨hdistinct, ?_⟩
  rw [hid1]
  -- run the outer wrapper: inner wrapper call, then the outer handler call
  set st2 : St := (protectEntryPoint g (protectEntryPoint g st fn).1 st.heap.length).1
    with hst2
  set flag : Bool := g.addTracersToProtectedFunctions_ with hflag
  have hw1fB : (bumpTracer flag st2).heap[st.heap.length]?
      = some { code := FnCode.protectedW g flag
                 (if flag then st.stackFn 15 else "") fn
               props := [(protectedFnName g, (protectEntryPoint g st fn).1.heap.length)]
               hasCall := true } := by
    cases hfl : flag <;> simpa [bumpTracer, hfl] using hw1fx
  have hf2B : (bumpTracer flag st2).heap[fn]?
      = some { code := FnCode.base beh
               props := (protectedFnName g, st.heap.length) :: fprops
               hasCall := fhc } := by
    cases hfl : flag <;> simpa [bumpTracer, hfl] using hf2
  have hh2B : (bumpTracer flag st2).heap[g.errorHandlerFn_]?
      = some { code := FnCode.base hbeh, props := hprops, hasCall := hhc } := by
    cases hfl : flag <;> simpa [bumpTracer, hfl] using hh2
  have hInner := invokeFn_wrapper fuel (bumpTracer flag st2) st.heap.length fn g flag
    (if flag then st.stackFn 15 else "")
    [(protectedFnName g, (protectEntryPoint g st fn).1.heap.length)] true
    beh hbeh ((protectedFnName g, st.heap.length) :: fprops) hprops fhc hhc
    hw1fB hf2B hh2B thisv args
  have hHB : (bumpTracer flag (bumpTracer flag st2)).heap[g.errorHandlerFn_]?
      = some { code := FnCode.base hbeh, props := hprops, hasCall := hhc } := by
    cases hfl : flag <;> simpa [bumpTracer, hfl] using hh2B
  have hHandler : invokeFn (fuel + 2) (bumpTracer flag (bumpTracer flag st2))
      g.errorHandlerFn_ (Val.guardRef g.uid) [e]
      = (bumpTracer flag (bumpTracer flag st2),
         [Ev.call g.errorHandlerFn_ (Val.guardRef g.uid) [e]],
         Except.ok hv) := by
    have := invokeFn_base (fuel + 1) (bumpTracer flag (bumpTracer flag st2))
      g.errorHandlerFn_ hbeh hprops hhc hHB (Val.guardRef g.uid) [e]
    rw [hhok] at this
    exact this
  have hInnerE : invokeFn (fuel + 2) (bumpTracer flag st2) st.heap.length thisv args
      = (bumpTracer flag (bumpTracer flag st2),
         tracePre flag (bumpTracer flag st2).nextTracer (if flag then st.stackFn 15 else "")
           ++ [Ev.call fn thisv args]
           ++ [Ev.call g.errorHandlerFn_ (Val.guardRef g.uid) [e]]
           ++ tracePost flag (bumpTracer flag st2).nextTracer,
         Except.error e) := by
    rw [hInner]
    simp [handlerEvs, wrapperResult, hthrow, hhok]
  have hOuter := invokeFn_protectedW_err (fuel + 2) st2 (st.heap.length + 1) st.heap.length
    g flag (if flag then st.stackFn 15 else "") [] true thisv args
    (bumpTracer flag (bumpTracer flag st2))
    (tracePre flag (bumpTracer flag st2).nextTracer (if flag then st.stackFn 15 else "")
      ++ [Ev.call fn thisv args]
      ++ [Ev.call g.errorHandlerFn_ (Val.guardRef g.uid) [e]]
      ++ tracePost flag (bumpTracer flag st2).nextTracer)
    e (bumpTracer flag (bumpTracer flag st2))
    [Ev.call g.errorHandlerFn_ (Val.guardRef g.uid) [e]]
    (Except.ok hv) hw2x hInnerE hHandler
  rw [hid2, show fuel + 3 = Nat.succ (fuel + 2) from rfl, hOuter]
  refine ⟨rfl, ?_⟩
  rw [List.filter_append, List.filter_append, List.filter_append, List.filter_append,
    List.filter_append, List.filter_append, filter_callTo_tracePre, filter_callTo_tracePre,
    filter_callTo_tracePost, filter_callTo_tracePost]
  simp [isCallTo, hne]

/-- C10 witness: double-protecting the throwing function at 1 of `demoSt`
yields a distinct outer wrapper, and its invocation reports `"x"` to the
handler twice and re-throws it. -/
theorem nested_protection_reports_twice_witness :
    (protectEntryPoint demoGuard (protectEntryPoint demoGuard demoSt 1).1
        (protectEntryPoint demoGuard demoSt 1).2.2).2.2
      ≠ (protectEntryPoint demoGuard demoSt 1).2.2 ∧
    (invokeFn 3
        (protectEntryPoint demoGuard (protectEntryPoint demoGuard demoSt 1).1
          (protectEntryPoint demoGuard demoSt 1).2.2).1
        (protectEntryPoint demoGuard (protectEntryPoint demoGuard demoSt 1).1
          (protectEntryPoint demoGuard demoSt 1).2.2).2.2
        Val.undef []).2.2 = Except.error (Val.str "x") ∧
    ((invokeFn 3
        (protectEntryPoint demoGuard (protectEntryPoint demoGuard demoSt 1).1
          (protectEntryPoint demoGuard demoSt 1).2.2).1
        (protectEntryPoint demoGuard (protectEntryPoint demoGuard demoSt 1).1
          (protectEntryPoint demoGuard demoSt 1).2.2).2.2
        Val.undef []).2.1.filter (isCallTo 0))
      = [Ev.call 0 (Val.guardRef 1) [Val.str "x"],
         Ev.call 0 (Val.guardRef 1) [Val.str "x"]] :=
  nested_protection_reports_twice 0 demoSt 1 demoGuard throwXBeh okHandlerBeh
    [] [] true true Val.undef (Val.str "x") Val.undef [] rfl rfl rfl (by decide) rfl rfl

/-- One step of a scheduler shim: the first argument (a function
reference) is protected, then the original scheduler is called with the
wrapped callback and the second argument only — with the shim's receiver
when the original has `.call`, directly otherwise. -/
theorem invokeFn_schedShim_step (fuel : Nat) (st : St) (sid orig f : Nat) (g : Guard)
    (sprops : List (String × Nat)) (shc : Bool) (thisv : Val) (rest : List Val)
    (oobj : FnObj) (stR : St) (evsR : List Ev) (r : Except Val Val)
    (hs : st.heap[sid]? =
      some { code := FnCode.schedShim g orig, props := sprops, hasCall := shc })
    (ho : (protectEntryPoint g st f).1.heap[orig]? = some oobj)
    (hr : invokeFn fuel (protectEntryPoint g st f).1 orig
        (if oobj.hasCall then thisv else Val.globalObj)
        [Val.fnRef (protectEntryPoint g st f).2.2, rest.getD 0 Val.undef] = (stR, evsR, r)) :
    invokeFn (Nat.succ fuel) st sid thisv (Val.fnRef f :: rest) =
      (stR, (protectEntryPoint g st f).2.1 ++ evsR, r) := by
  rw [List.getD_eq_getElem?_getD] at hr
  simp only [invokeFn, hs]
  simp [ho, hr]

/-- Full run of a scheduler shim over base functions: the emitted events
are the wrapper-build events followed by exactly one call of the original
scheduler with the wrapped callback and the second argument, and the
result is whatever the original scheduler returns. -/
theorem invokeFn_schedShim_run (fuel : Nat) (st : St) (sid orig f : Nat) (g : Guard)
    (sprops : List (String × Nat)) (shc : Bool)
    (behF behO : Val → List Val → Except Val Val)
    (fprops2 oprops : List (String × Nat)) (fhc2 ohc : Bool) (thisv : Val) (rest : List Val)
    (hs : st.heap[sid]? =
      some { code := FnCode.schedShim g orig, props := sprops, hasCall := shc })
    (hfB : st.heap[f]? = some { code := FnCode.base behF, props := fprops2, hasCall := fhc2 })
    (hfresh : fprops2.lookup (protectedFnName g) = none)
    (ho : st.heap[orig]? = some { code := FnCode.base behO, props := oprops, hasCall := ohc })
    (hneof : orig ≠ f) :
    invokeFn (fuel + 2) st sid thisv (Val.fnRef f :: rest)
      = ((protectEntryPoint g st f).1,
         (protectEntryPoint g st f).2.1
           ++ [Ev.call orig (if ohc then thisv else Val.globalObj)
                [Val.fnRef (protectEntryPoint g st f).2.2, rest.getD 0 Val.undef]],
         behO (if ohc then thisv else Val.globalObj)
           [Val.fnRef (protectEntryPoint g st f).2.2, rest.getD 0 Val.undef]) := by
  have h1 := protectEntryPoint_fresh g st f _ hfB hfresh
  have ho1 : (protectEntryPoint g st f).1.heap[orig]?
      = some { code := FnCode.base behO, props := oprops, hasCall := ohc } := by
    rw [h1]
    rw [getElem?_setAppend_other st.heap f orig _ _ hneof (getElem?_some_lt ho)]
    exact ho
  have hr := invokeFn_base fuel (protectEntryPoint g st f).1 orig behO oprops ohc ho1
    (if ohc then thisv else Val.globalObj)
    [Val.fnRef (protectEntryPoint g st f).2.2, rest.getD 0 Val.undef]
  have step := invokeFn_schedShim_step (fuel + 1) st sid orig f g sprops shc thisv rest
    _ _ _ _ hs ho1 hr
  rw [show fuel + 2 = Nat.succ (fuel + 1) from rfl, step]

/-- C9: a scheduler shim returns to its caller exactly the value the
original scheduling function returns (the timer identifier passes through
unchanged, also when the original throws), on the `.call` path
(`ohc = true`) as well as on the direct-invocation fallback path
(`ohc = false`). -/
theorem shim_returns_original_result (fuel : Nat) (st : St) (sid orig f : Nat) (g : Guard)
    (sprops : List (String × Nat)) (shc : Bool)
    (behF behO : Val → List Val → Except Val Val)
    (fprops2 oprops : List (String × Nat)) (fhc2 ohc : Bool) (thisv : Val) (rest : List Val)
    (hs : st.heap[sid]? =
      some { code := FnCode.schedShim g orig, props := sprops, hasCall := shc })
    (hfB : st.heap[f]? = some { code := FnCode.base behF, props := fprops2, hasCall := fhc2 })
    (hfresh : fprops2.lookup (protectedFnName g) = none)
    (ho : st.heap[orig]? = some { code := FnCode.base behO, props := oprops, hasCall := ohc })
    (hneof : orig ≠ f) :
    (invokeFn (fuel + 2) st sid thisv (Val.fnRef f :: rest)).2.2
      = behO (if ohc then thisv else Val.globalObj)
          [Val.fnRef (protectEntryPoint g st f).2.2, rest.getD 0 Val.undef] := by
  rw [invokeFn_schedShim_run fuel st sid orig f g sprops shc behF behO fprops2 oprops
    fhc2 ohc thisv rest hs hfB hfresh ho hneof]

/-- C9 witness: over `demoSt` with the scheduler installed by
`protectWindowSetTimeout`, the shim passes the scheduler's return value
42 through to its caller. -/
theorem shim_returns_original_result_witness :
    (invokeFn 2 (protectWindowSetTimeout demoGuard demoSt)
        (protectWindowSetTimeout demoGuard demoSt).winSetTimeout
        (Val.num 9) [Val.fnRef 1, Val.num 5]).2.2
      = sched42Beh (Val.num 9)
          [Val.fnRef (protectEntryPoint demoGuard (protectWindowSetTimeout demoGuard demoSt) 1).2.2,
           Val.num 5] :=
  shim_returns_original_result 0 (protectWindowSetTimeout demoGuard demoSt)
    (protectWindowSetTimeout demoGuard demoSt).winSetTimeout 3 1 demoGuard
    [] true throwXBeh sched42Beh [] [] true true (Val.num 9) [Val.num 5]
    rfl rfl rfl rfl (by decide)

/-- C5 fails as stated: the shim forwards only the callback and the
delay. Calling the replaced scheduler with an extra argument (`77`), the
original scheduler receives just the wrapped callback and the delay — the
extra argument is dropped, not preserved. -/
theorem shim_forwards_extra_args_cex :
    ((invokeFn 2 (protectWindowSetTimeout demoGuard demoSt)
        (protectWindowSetTimeout demoGuard demoSt).winSetTimeout
        (Val.num 9) [Val.fnRef 1, Val.num 5, Val.num 77]).2.1.filter (isCallTo 3))
      = [Ev.call 3 (Val.num 9) [Val.fnRef 5, Val.num 5]] ∧
    Val.num 77 ∈ [Val.fnRef 1, Val.num 5, Val.num 77] ∧
    Val.num 77 ∉ [Val.fnRef 5, Val.num 5] :=
  ⟨rfl, by decide, by decide⟩

/-- C5 (amended): `protectWindowSetTimeout` (resp.
`protectWindowSetInterval`) replaces the window's scheduler slot with a
shim over the previous scheduler; every call of the shim wraps the
caller-supplied callback via `protectEntryPoint` and calls the original
scheduler exactly once — with the shim's own receiver when the original
supports `.call`, directly otherwise — passing the wrapped callback and
the delay positionally; arguments beyond the delay are dropped. -/
theorem protectWindow_schedulers_forward (fuel : Nat) (st : St) (f : Nat) (g : Guard)
    (behF behOT behOI : Val → List Val → Except Val Val)
    (fprops2 opropsT opropsI : List (String × Nat)) (fhc2 ohcT ohcI : Bool)
    (thisv : Val) (rest : List Val)
    (hfB : st.heap[f]? = some { code := FnCode.base behF, props := fprops2, hasCall := fhc2 })
    (hfresh : fprops2.lookup (protectedFnName g) = none)
    (hoT : st.heap[st.winSetTimeout]? =
      some { code := FnCode.base behOT, props := opropsT, hasCall := ohcT })
    (hoI : st.heap[st.winSetInterval]? =
      some { code := FnCode.base behOI, props := opropsI, hasCall := ohcI })
    (hneT : st.winSetTimeout ≠ f) (hneI : st.winSetInterval ≠ f) :
    (protectWindowSetTimeout g st).winSetTimeout = st.heap.length ∧
    (protectWindowSetTimeout g st).heap[st.heap.length]?
      = some { code := FnCode.schedShim g st.winSetTimeout, props := [], hasCall := true } ∧
    (protectWindowSetInterval g st).winSetInterval = st.heap.length ∧
    (protectWindowSetInterval g st).heap[st.heap.length]?
      = some { code := FnCode.schedShim g st.winSetInterval, props := [], hasCall := true } ∧
    ((invokeFn (fuel + 2) (protectWindowSetTimeout g st)
        (protectWindowSetTimeout g st).winSetTimeout thisv
        (Val.fnRef f :: rest)).2.1.filter (isCallTo st.winSetTimeout))
      = [Ev.call st.winSetTimeout (if ohcT then thisv else Val.globalObj)
          [Val.fnRef (protectEntryPoint g (protectWindowSetTimeout g st) f).2.2,
           rest.getD 0 Val.undef]] ∧
    ((invokeFn (fuel + 2) (protectWindowSetInterval g st)
        (protectWindowSetInterval g st).winSetInterval thisv
        (Val.fnRef f :: rest)).2.1.filter (isCallTo st.winSetInterval))
      = [Ev.call st.winSetInterval (if ohcI then thisv else Val.globalObj)
          [Val.fnRef (protectEntryPoint g (protectWindowSetInterval g st) f).2.2,
           rest.getD 0 Val.undef]] := by
  have hltf : f < st.heap.length := getElem?_some_lt hfB
  have hsT : (protectWindowSetTimeout g st).heap[(protectWindowSetTimeout g st).winSetTimeout]?
      = some { code := FnCode.schedShim g st.winSetTimeout, props := [], hasCall := true } :=
    List.getElem?_concat_length st.heap _
  have hfT : (protectWindowSetTimeout g st).heap[f]?
      = some { code := FnCode.base behF, props := fprops2, hasCall := fhc2 } := by
    show (st.heap ++ _)[f]? = _
    rw [List.getElem?_append_left hltf]
    exact hfB
  have hoTT : (protectWindowSetTimeout g st).heap[st.winSetTimeout]?
      = some { code := FnCode.base behOT, props := opropsT, hasCall := ohcT } := by
    show (st.heap ++ _)[st.winSetTimeout]? = _
    rw [List.getElem?_append_left (getElem?_some_lt hoT)]
    exact hoT
  have hrunT := invokeFn_schedShim_run fuel (protectWindowSetTimeout g st)
    (protectWindowSetTimeout g st).winSetTimeout st.winSetTimeout f g [] true
    behF behOT fprops2 opropsT fhc2 ohcT thisv rest hsT hfT hfresh hoTT hneT
  have hbT : ((protectEntryPoint g (protectWindowSetTimeout g st) f).2.1).filter
      (isCallTo st.winSetTimeout) = [] := by
    rw [protectEntryPoint_fresh g (protectWindowSetTimeout g st) f _ hfT hfresh,
      getProtectedFunction_eq]
    by_cases hfl : g.addTracersToProtectedFunctions_ <;> simp [hfl, isCallTo]
  have hsI : (protectWindowSetInterval g st).heap[(protectWindowSetInterval g st).winSetInterval]?
      = some { code := FnCode.schedShim g st.winSetInterval, props := [], hasCall := true } :=
    List.getElem?_concat_length st.heap _
  have hfI : (protectWindowSetInterval g st).heap[f]?
      = some { code := FnCode.base behF, props := fprops2, hasCall := fhc2 } := by
    show (st.heap ++ _)[f]? = _
    rw [List.getElem?_append_left hltf]
    exact hfB
  have hoII : (protectWindowSetInterval g st).heap[st.winSetInterval]?
      = some { code := FnCode.base behOI, props := opropsI, hasCall := ohcI } := by
    show (st.heap ++ _)[st.winSetInterval]? = _
    rw [List.getElem?_append_left (getElem?_some_lt hoI)]
    exact hoI
  have hrunI := invokeFn_schedShim_run fuel (protectWindowSetInterval g st)
    (protectWindowSetInterval g st).winSetInterval st.winSetInterval f g [] true
    behF behOI fprops2 opropsI fhc2 ohcI thisv rest hsI hfI hfresh hoII hneI
  have hbI : ((protectEntryPoint g (protectWindowSetInterval g st) f).2.1).filter
      (isCallTo st.winSetInterval) = [] := by
    rw [protectEntryPoint_fresh g (protectWindowSetInterval g st) f _ hfI hfresh,
      getProtectedFunction_eq]
    by_cases hfl : g.addTracersToProtectedFunctions_ <;> simp [hfl, isCallTo]
  refine ⟨rfl, hsT, rfl, hsI, ?_, ?_⟩
  · rw [hrunT]
    simp only [List.filter_append, hbT, List.nil_append]
    simp [isCallTo]
  · rw [hrunI]
    simp only [List.filter_append, hbI, List.nil_append]
    simp [isCallTo]

/-- C5 (amended) witness: over `demoSt` (scheduler at 3), both installed
shims forward the wrapped callback (5) and the delay 5 to the original
scheduler, dropping the extra argument 77. -/
theorem protectWindow_schedulers_forward_witness :
    (protectWindowSetTimeout demoGuard demoSt).winSetTimeout = 4 ∧
    (protectWindowSetTimeout demoGuard demoSt).heap[4]?
      = some { code := FnCode.schedShim demoGuard 3, props := [], hasCall := true } ∧
    (protectWindowSetInterval demoGuard demoSt).winSetInterval = 4 ∧
    (protectWindowSetInterval demoGuard demoSt).heap[4]?
      = some { code := FnCode.schedShim demoGuard 3, props := [], hasCall := true } ∧
    ((invokeFn 2 (protectWindowSetTimeout demoGuard demoSt)
        (protectWindowSetTimeout demoGuard demoSt).winSetTimeout (Val.num 9)
        (Val.fnRef 1 :: [Val.num 5, Val.num 77])).2.1.filter (isCallTo 3))
      = [Ev.call 3 (Val.num 9)
          [Val.fnRef (protectEntryPoint demoGuard (protectWindowSetTimeout demoGuard demoSt) 1).2.2,
           Val.num 5]] ∧
    ((invokeFn 2 (protectWindowSetInterval demoGuard demoSt)
        (protectWindowSetInterval demoGuard demoSt).winSetInterval (Val.num 9)
        (Val.fnRef 1 :: [Val.num 5, Val.num 77])).2.1.filter (isCallTo 3))
      = [Ev.call 3 (Val.num 9)
          [Val.fnRef (protectEntryPoint demoGuard (protectWindowSetInterval demoGuard demoSt) 1).2.2,
           Val.num 5]] :=
  protectWindow_schedulers_forward 0 demoSt 1 demoGuard throwXBeh sched42Beh sched42Beh
    [] [] [] true true true (Val.num 9) [Val.num 5, Val.num 77]
    rfl rfl rfl rfl (by decide) (by decide)

end GoogDebug
